import Mathlib

/-!
Verification of the check orchestration core of the `status` library
(health-check targets, combinators, concurrent fan-out, background-refresh
docker probe, HTTP health handler).

Go errors are embedded as `Option Err` (`none` = nil error).  Concurrency is
embedded by making the nondeterministic completion order of the fan-out an
explicit parameter (a permutation of the worker indices) and by passing each
probe's observed result and duration as functions of the worker index.
-/

set_option maxRecDepth 4000

/-- Embedding of Go `error` values as produced by this library:
`ctxCanceled` is `ctx.Err()`, `simple` an `errors.New`/`fmt.Errorf` leaf,
`wrap` is `fmt.Errorf("msg: %w", e)` with a non-nil inner error, and
`wrapNil` is `fmt.Errorf("msg: %w", e)` applied to a nil error. -/
inductive Err where
  | ctxCanceled : Err
  | simple (s : String) : Err
  | wrap (s : String) (inner : Err) : Err
  | wrapNil (s : String) : Err
deriving DecidableEq, Repr

/-- The `Error()` string of an embedded error (`%w` of nil renders as
`%!w(<nil>)` in Go's fmt). -/
def errMessage : Err → String
  | .ctxCanceled => "context canceled"
  | .simple s => s
  | .wrap s inner => s ++ ": " ++ errMessage inner
  | .wrapNil s => s ++ ": %!w(<nil>)"

/-- `fmt.Errorf("s: %w", e)` where `e : Option Err` may be nil. -/
def mkWrap (s : String) : Option Err → Err
  | some e => .wrap s e
  | none => .wrapNil s

/-- `errgroup.Group.Wait` over the goroutines' return values listed in
completion order: the first non-nil error, else nil. -/
def errgroupWait : List (Option Err) → Option Err
  | [] => none
  | none :: rest => errgroupWait rest
  | some e :: _ => some e

theorem errgroupWait_replicate_none (n : Nat) :
    errgroupWait (List.replicate n none) = none := by
  induction n with
  | zero => rfl
  | succ k ih => simpa [List.replicate, errgroupWait] using ih

/-! ## Combinators (src/check/check.go)

A sub-probe is represented by the result it delivers (`Option Err`); a list
of such results, in completion order, represents one concurrent run. -/

/-- `check.All`: every goroutine returns its check's error to the errgroup;
`Wait` yields the first failure, which `All` wraps. -/
def allCheck (rs : List (Option Err)) : Option Err :=
  match errgroupWait rs with
  | some e => some (.wrap "waiting errgroup" e)
  | none => none

/-- The collection loop of `check.Any`: stop at the first nil result
(success), otherwise remember the last error seen.  Returns
(success flag, last error). -/
def anyScan : List (Option Err) → Option Err → Bool × Option Err
  | [], lastErr => (false, lastErr)
  | none :: _, lastErr => (true, lastErr)
  | some e :: rest, _ => anyScan rest (some e)

/-- `check.Any`: every goroutine sends its result into a buffered channel and
returns nil to the errgroup; the results are then scanned in completion
order. -/
def anyCheck (rs : List (Option Err)) : Option Err :=
  match errgroupWait (List.replicate rs.length none) with
  | some e => some (.wrap "waiting errgroup" e)
  | none =>
    match anyScan rs none with
    | (true, _) => none
    | (false, lastErr) => some (mkWrap "all checks failed" lastErr)

/-- The collection loop of `check.WithThreshold`: count nil results, remember
the last error.  Returns (success count, last error). -/
def thresholdScan : List (Option Err) → Nat → Option Err → Nat × Option Err
  | [], count, lastErr => (count, lastErr)
  | none :: rest, count, lastErr => thresholdScan rest (count + 1) lastErr
  | some e :: rest, count, _ => thresholdScan rest count (some e)

/-- `check.WithThreshold` (threshold is a Go `int`, hence `Int` here). -/
def withThreshold (threshold : Int) (rs : List (Option Err)) : Option Err :=
  match errgroupWait (List.replicate rs.length none) with
  | some e => some (.wrap "waiting errgroup" e)
  | none =>
    match thresholdScan rs 0 none with
    | (successCount, lastErr) =>
      if (successCount : Int) < threshold then
        some (mkWrap ("insufficient successful checks: got " ++
          toString successCount ++ ", want " ++ toString threshold) lastErr)
      else none

/-- Number of succeeding (nil) results in a run. -/
def countSuccess : List (Option Err) → Nat
  | [] => 0
  | none :: rest => countSuccess rest + 1
  | some _ :: rest => countSuccess rest

/-- The last non-nil error of a run (none when every result is nil). -/
def lastSome : List (Option Err) → Option Err
  | [] => none
  | r :: rest =>
    match lastSome rest with
    | some e => some e
    | none => r

theorem thresholdScan_eq (rs : List (Option Err)) :
    ∀ (c : Nat) (e : Option Err),
      thresholdScan rs c e =
        (c + countSuccess rs,
          match lastSome rs with
          | some x => some x
          | none => e) := by
  induction rs with
  | nil => intro c e; simp [thresholdScan, countSuccess, lastSome]
  | cons r rest ih =>
    intro c e
    cases r with
    | none =>
      simp only [thresholdScan, countSuccess, lastSome, ih]
      cases lastSome rest <;> simp <;> omega
    | some x =>
      simp only [thresholdScan, countSuccess, lastSome, ih]
      cases lastSome rest <;> rfl

theorem anyScan_false_iff (rs : List (Option Err)) :
    ∀ e : Option Err, (anyScan rs e).1 = false ↔ ∀ r ∈ rs, r ≠ none := by
  induction rs with
  | nil => intro e; simp [anyScan]
  | cons r rest ih =>
    intro e
    cases r with
    | none => simp [anyScan]
    | some x => simp [anyScan, ih]

theorem anyScan_allFail (rs : List (Option Err)) (h : ∀ r ∈ rs, r ≠ none) :
    ∀ e : Option Err,
      anyScan rs e =
        (false,
          match lastSome rs with
          | some x => some x
          | none => e) := by
  induction rs with
  | nil => intro e; simp [anyScan, lastSome]
  | cons r rest ih =>
    intro e
    cases r with
    | none => exact absurd rfl (h none (List.mem_cons_self _ _))
    | some x =>
      have hrest : ∀ r ∈ rest, r ≠ none := fun r hr => h r (List.mem_cons_of_mem _ hr)
      simp only [anyScan, lastSome, ih hrest]
      cases lastSome rest <;> rfl

/-! ## HealthChecker (package status)

Each target's probe is represented by the result and the measured duration
its worker observes (`probeRes i`, `probeDur i`); the completion order of
the fan-out is the explicit list `order` of worker indices. -/

/-- `TargetImportance` is a Go string type. -/
abbrev TargetImportance := String

def TargetImportanceLow : TargetImportance := "low"

def TargetImportanceHigh : TargetImportance := "high"

/-- `HealthTargetStatus` is a Go string type. -/
abbrev HealthTargetStatus := String

def HealthTargetStatusOk : HealthTargetStatus := "ok"

def HealthTargetStatusFail : HealthTargetStatus := "fail"

/-- A registered target (the `check` capability itself is carried outside
the record, as the worker-indexed result functions). -/
structure HealthTarget where
  Name : String := ""
  Importance : TargetImportance := ""
  Icon : String := ""
  Group : String := ""
deriving DecidableEq, Repr, Inhabited

structure HealthCheckResult where
  Target : HealthTarget := {}
  Status : HealthTargetStatus := ""
  ErrorMessage : String := ""
  Duration : Nat := 0
  err : Option Err := none
deriving DecidableEq, Repr, Inhabited

structure HealthChecker where
  targets : List HealthTarget
deriving DecidableEq, Repr, Inhabited

def NewHealthChecker : HealthChecker := { targets := [] }

/-- A `TargetOption` mutates the target under construction. -/
abbrev TargetOption := HealthTarget → HealthTarget

def WithImportance (importance : TargetImportance) : TargetOption :=
  fun t => { t with Importance := importance }

def WithIcon (icon : String) : TargetOption :=
  fun t => { t with Icon := icon }

def WithGroup (group : String) : TargetOption :=
  fun t => { t with Group := group }

def HealthChecker.WithTarget (c : HealthChecker) (name : String)
    (opts : List TargetOption) : HealthChecker :=
  { targets :=
      c.targets ++
        [opts.foldl (fun t opt => opt t)
          { Name := name, Importance := TargetImportanceHigh }] }

/-- The body of one fan-out worker (lines 150-172 of the orchestrator): an
Ok or Fail result for its own target, built from the probe's error and the
elapsed duration. -/
def mkResult (target : HealthTarget) (res : Option Err) (duration : Nat) :
    HealthCheckResult :=
  match res with
  | some e =>
    { Target := target, Status := HealthTargetStatusFail, err := some e,
      ErrorMessage := errMessage e, Duration := duration }
  | none =>
    { Target := target, Status := HealthTargetStatusOk, Duration := duration }

/-- Index-addressed writes of the workers' results into the pre-sized slice,
performed in completion order. -/
def writeResults (targets : List HealthTarget) (probeRes : Nat → Option Err)
    (probeDur : Nat → Nat) : List Nat → List HealthCheckResult → List HealthCheckResult
  | [], acc => acc
  | i :: rest, acc =>
    writeResults targets probeRes probeDur rest
      (acc.set i (mkResult (targets.getD i default) (probeRes i) (probeDur i)))

/-- `HealthChecker.Check`: pre-size the result slice, run one worker per
target (each worker returns nil to the errgroup after storing its result),
wait, and return the slice; the error branch wraps a non-nil `Wait` result. -/
def HealthChecker.Check (c : HealthChecker) (probeRes : Nat → Option Err)
    (probeDur : Nat → Nat) (order : List Nat) :
    List HealthCheckResult × Option Err :=
  match errgroupWait (List.replicate c.targets.length none) with
  | some e => ([], some (.wrap "waiting errgroup" e))
  | none =>
    (writeResults c.targets probeRes probeDur order
      (List.replicate c.targets.length default), none)

/-- The handler's aggregation loop: 500 at the first High-importance result
that is not Ok (or carries an error), 200 otherwise. -/
def aggregateStatus : List HealthCheckResult → Nat
  | [] => 200
  | r :: rest =>
    if r.Target.Importance = TargetImportanceHigh ∧
        (r.Status ≠ HealthTargetStatusOk ∨ r.err.isSome) then 500
    else aggregateStatus rest

/-! JSON encoding, following Go `encoding/json` with this package's struct
tags (`omitempty` drops zero-valued fields). -/

/-- A primitive JSON value appearing in this package's objects. -/
inductive JPrim where
  | str (s : String) : JPrim
  | num (n : Nat) : JPrim
deriving DecidableEq, Repr

/-- A JSON value one level up: a primitive or the nested target object. -/
inductive JVal where
  | prim (p : JPrim) : JVal
  | obj (fields : List (String × JPrim)) : JVal
deriving DecidableEq, Repr

def hasKey (fields : List (String × α)) (key : String) : Bool :=
  fields.any (fun f => f.1 = key)

def getKey : List (String × α) → String → Option α
  | [], _ => none
  | (k, v) :: rest, key => if k = key then some v else getKey rest key

/-- JSON encoding of `HealthTarget` (tags: `name`, `importance`,
`icon,omitempty`, `group,omitempty`; the unexported `check` field is not
encoded). -/
def encodeHealthTarget (t : HealthTarget) : List (String × JPrim) :=
  [("name", .str t.Name), ("importance", .str t.Importance)] ++
    (if t.Icon = "" then [] else [("icon", .str t.Icon)]) ++
    (if t.Group = "" then [] else [("group", .str t.Group)])

/-- JSON encoding of `HealthCheckResult` (tags: `target`, `status`,
`error,omitempty`, `duration,omitempty`; the unexported `err` field is not
encoded). -/
def encodeHealthCheckResult (r : HealthCheckResult) : List (String × JVal) :=
  [("target", .obj (encodeHealthTarget r.Target)),
   ("status", .prim (.str r.Status))] ++
    (if r.ErrorMessage = "" then [] else [("error", .prim (.str r.ErrorMessage))]) ++
    (if r.Duration = 0 then [] else [("duration", .prim (.num r.Duration))])

/-- `HealthChecker.Handler`: 200 and no body array on `no_deps`; 500 with an
error body (no result array) if `Check` errors; otherwise the aggregate
status with the encoded result array as body. -/
def HealthChecker.Handler (c : HealthChecker) (noDeps : Bool)
    (probeRes : Nat → Option Err) (probeDur : Nat → Nat) (order : List Nat) :
    Nat × Option (List (List (String × JVal))) :=
  if noDeps then (200, none)
  else
    match c.Check probeRes probeDur order with
    | (_, some _) => (500, none)
    | (results, none) => (aggregateStatus results, some (results.map encodeHealthCheckResult))

/-! ## Background-refresh docker probe (src/check/system/docker/docker.go)

Times and durations are Go `time.Duration`/`time.Time` nanosecond counts,
embedded as `Int`; the zero `time.Time` is `none`. -/

/-- `check.DefaultConfig().Timeout` = 5s in nanoseconds. -/
def defaultTimeout : Int := 5000000000

structure dockerCheck where
  lastErr : Option Err := none
  lastChecked : Option Int := none
  interval : Int := 0
  timeout : Int := 0
deriving DecidableEq, Repr, Inhabited

/-- The staleness failure text (Go formats the two durations; here they are
rendered as integers). -/
def staleMsg (since interval : Int) : String :=
  "docker check result stale: last=" ++ toString since ++
    " interval=" ++ toString interval

def notInitializedMsg : String := "docker check has not completed an initial run"

/-- `dockerCheck.Check` (lines 163-184): fail on a done caller context, else
read the cached state; fail if never refreshed, fail if the cached result is
older than `interval*2`, else return the cached error verbatim. -/
def dockerCheck.Check (dc : dockerCheck) (ctxDone : Bool) (now : Int) : Option Err :=
  if ctxDone then some (.wrap "docker check context" .ctxCanceled)
  else
    match dc.lastChecked with
    | none => some (.simple notInitializedMsg)
    | some t =>
      if dc.interval * 2 < now - t then
        some (.simple (staleMsg (now - t) dc.interval))
      else dc.lastErr

/-- `newCheck` (lines 45-89): validate, default the timeout, run one
synchronous refresh (whose underlying result is `firstRefreshErr`, stored at
time `constructTime`), and return the constructed instance.
`labelsCount` is `len(labels)`, `cfgTimeout` is `config.Timeout`. -/
def newCheck (labelsCount : Nat) (interval : Int) (cfgTimeout : Int)
    (firstRefreshErr : Option Err) (constructTime : Int) :
    Except String dockerCheck :=
  if labelsCount = 0 then .error "labels must not be empty"
  else if interval ≤ 0 then .error "interval must be positive"
  else
    .ok { lastErr := firstRefreshErr, lastChecked := some constructTime,
          interval := interval,
          timeout := if cfgTimeout = 0 then defaultTimeout else cfgTimeout }

/-! ## Retry combinator (src/check/check.go lines 79-98)

`probe i` is the result of the (i+1)-th invocation; `ctxDoneAt i` states
whether the caller's context is done during the wait following attempt `i`
(the wait's `select` then takes the `ctx.Done()` branch).  The second
component counts the fully elapsed `delay` waits. -/

def withRetriesAux (probe : Nat → Option Err) (ctxDoneAt : Nat → Bool) :
    Nat → Nat → Option Err → Nat → Option Err × Nat
  | _, 0, lastErr, waits => (lastErr, waits)
  | i, remaining + 1, _, waits =>
    match probe i with
    | none => (none, waits)
    | some e =>
      if ctxDoneAt i then (some .ctxCanceled, waits)
      else withRetriesAux probe ctxDoneAt (i + 1) remaining (some e) (waits + 1)

/-- `check.WithRetries` run on `attempts` attempts: the wait (and its
cancellation window) follows every failed attempt, the final one included. -/
def withRetries (probe : Nat → Option Err) (ctxDoneAt : Nat → Bool)
    (attempts : Nat) : Option Err × Nat :=
  withRetriesAux probe ctxDoneAt 0 attempts none 0

/-- Modelled from the spec: the retry algorithm as the spec words it — the
delay wait happens only *between* attempts, so the last attempt's failure is
returned directly with no wait and no cancellation window after it. -/
def retrySpecAux (probe : Nat → Option Err) (ctxDoneAt : Nat → Bool) :
    Nat → Nat → Option Err → Option Err
  | _, 0, lastErr => lastErr
  | i, remaining + 1, _ =>
    match probe i with
    | none => none
    | some e =>
      if remaining = 0 then some e
      else if ctxDoneAt i then some .ctxCanceled
      else retrySpecAux probe ctxDoneAt (i + 1) remaining (some e)

/-- Modelled from the spec: entry point of the spec's retry algorithm. -/
def retrySpec (probe : Nat → Option Err) (ctxDoneAt : Nat → Bool)
    (attempts : Nat) : Option Err :=
  retrySpecAux probe ctxDoneAt 0 attempts none

/-! ## Helper lemmas about the fan-out -/

theorem writeResults_length (targets : List HealthTarget) (probeRes : Nat → Option Err)
    (probeDur : Nat → Nat) :
    ∀ (order : List Nat) (acc : List HealthCheckResult),
      (writeResults targets probeRes probeDur order acc).length = acc.length := by
  intro order
  induction order with
  | nil => intro acc; rfl
  | cons i rest ih => intro acc; simp [writeResults, ih]

theorem writeResults_getElem? (targets : List HealthTarget) (probeRes : Nat → Option Err)
    (probeDur : Nat → Nat) :
    ∀ (order : List Nat) (acc : List HealthCheckResult) (j : Nat), j < acc.length →
      (writeResults targets probeRes probeDur order acc)[j]? =
        if j ∈ order then
          some (mkResult (targets.getD j default) (probeRes j) (probeDur j))
        else acc[j]? := by
  intro order
  induction order with
  | nil => intro acc j _; simp [writeResults]
  | cons i rest ih =>
    intro acc j hj
    have hj2 : j <
        (acc.set i (mkResult (targets.getD i default) (probeRes i) (probeDur i))).length := by
      simpa using hj
    rw [writeResults, ih _ j hj2]
    by_cases hjr : j ∈ rest
    · simp [hjr]
    · by_cases hji : j = i
      · subst hji
        simp [hjr, List.getElem?_set_self hj]
      · simp [hjr, hji, List.getElem?_set_ne (fun hh => hji hh.symm)]

/-- Under any completion order that is a permutation of the worker indices,
`Check` returns exactly the per-index results, in registration order, and a
nil error. -/
theorem healthCheck_results (c : HealthChecker) (probeRes : Nat → Option Err)
    (probeDur : Nat → Nat) (order : List Nat)
    (h : order.Perm (List.range c.targets.length)) :
    c.Check probeRes probeDur order =
      ((List.range c.targets.length).map
        (fun i => mkResult (c.targets.getD i default) (probeRes i) (probeDur i)),
       none) := by
  unfold HealthChecker.Check
  rw [errgroupWait_replicate_none]
  refine congrArg (fun l => (l, none)) ?_
  apply List.ext_getElem?
  intro j
  by_cases hj : j < c.targets.length
  · rw [writeResults_getElem? _ _ _ order _ j (by simpa using hj)]
    have hmem : j ∈ order := (h.mem_iff).2 (List.mem_range.2 hj)
    rw [if_pos hmem, List.getElem?_map,
      List.getElem?_eq_getElem (by simpa using hj)]
    simp [List.getElem_range]
  · have h1 : (writeResults c.targets probeRes probeDur order
        (List.replicate c.targets.length default)).length = c.targets.length := by
      simp [writeResults_length]
    rw [List.getElem?_eq_none (by omega : (writeResults c.targets probeRes probeDur order
        (List.replicate c.targets.length default)).length ≤ j),
      List.getElem?_eq_none (by simpa using Nat.le_of_not_lt hj)]

theorem aggregateStatus_eq_500_iff (l : List HealthCheckResult) :
    aggregateStatus l = 500 ↔
      ∃ r ∈ l, r.Target.Importance = TargetImportanceHigh ∧
        (r.Status ≠ HealthTargetStatusOk ∨ r.err.isSome) := by
  induction l with
  | nil => simp [aggregateStatus]
  | cons r rest ih =>
    by_cases hc : r.Target.Importance = TargetImportanceHigh ∧
        (r.Status ≠ HealthTargetStatusOk ∨ r.err.isSome)
    · simp [aggregateStatus, hc]
    · simp [aggregateStatus, hc, ih]

theorem mkResult_failCond (t : HealthTarget) (res : Option Err) (d : Nat) :
    ((mkResult t res d).Target.Importance = TargetImportanceHigh ∧
      ((mkResult t res d).Status ≠ HealthTargetStatusOk ∨
        (mkResult t res d).err.isSome)) ↔
      (t.Importance = TargetImportanceHigh ∧ res ≠ none) := by
  cases res <;> simp [mkResult, HealthTargetStatusOk, HealthTargetStatusFail]

/-! ## Claims about the orchestrator -/

/-- Claim C1: for every set of registered targets and every completion order
of the concurrent per-target work, `HealthChecker.Check` returns a list of
outcomes with the same length and the same order as the registered targets:
the outcome at index `i` is built from the `i`-th registered target and its
own probe's result. -/
theorem check_returns_ordered_results (c : HealthChecker) (probeRes : Nat → Option Err)
    (probeDur : Nat → Nat) (order : List Nat)
    (h : order.Perm (List.range c.targets.length)) :
    (c.Check probeRes probeDur order).1.length = c.targets.length ∧
    ∀ i, i < c.targets.length →
      (c.Check probeRes probeDur order).1.getD i default =
        mkResult (c.targets.getD i default) (probeRes i) (probeDur i) := by
  rw [healthCheck_results c probeRes probeDur order h]
  constructor
  · simp
  · intro i hi
    rw [List.getD_eq_getElem?_getD, List.getElem?_map,
      List.getElem?_eq_getElem (by simpa using hi)]
    simp [List.getElem_range]

/-- A two-target checker (one High-importance, one Low-importance failing)
used as the concrete instance for the orchestrator claims. -/
def demoChecker : HealthChecker :=
  (NewHealthChecker.WithTarget "db" []).WithTarget "cache"
    [WithImportance TargetImportanceLow]

def demoRes : Nat → Option Err :=
  fun i => if i = 0 then none else some (.simple "cache down")

def demoDur : Nat → Nat := fun _ => 0

theorem check_returns_ordered_results_witness :
    ([1, 0].Perm (List.range demoChecker.targets.length)) ∧
    ((demoChecker.Check demoRes demoDur [1, 0]).1.length = demoChecker.targets.length ∧
     ∀ i, i < demoChecker.targets.length →
       (demoChecker.Check demoRes demoDur [1, 0]).1.getD i default =
         mkResult (demoChecker.targets.getD i default) (demoRes i) (demoDur i)) :=
  ⟨by decide, check_returns_ordered_results demoChecker demoRes demoDur [1, 0] (by decide)⟩

/-- Claim C3: `HealthChecker.Check` returns a nil error for every set of
targets, every probe behavior (a cancelled caller context included, since
`probeRes` ranges over arbitrary failures) and every completion order: each
worker stores its probe's failure in its outcome and returns nil to the
errgroup, so the infrastructure-error branch after `Wait` is unreachable. -/
theorem check_error_is_nil (c : HealthChecker) (probeRes : Nat → Option Err)
    (probeDur : Nat → Nat) (order : List Nat) :
    (c.Check probeRes probeDur order).2 = none := by
  unfold HealthChecker.Check
  rw [errgroupWait_replicate_none]

/-- Claim C2: without the `no_deps` parameter, the health handler responds
500 if and only if at least one registered target of High importance has a
failing probe result; hence a Low-importance failure alone leaves the
response at 200, and any High-importance failure forces 500. -/
theorem handler_500_iff_high_fail (c : HealthChecker) (probeRes : Nat → Option Err)
    (probeDur : Nat → Nat) (order : List Nat)
    (h : order.Perm (List.range c.targets.length)) :
    (c.Handler false probeRes probeDur order).1 = 500 ↔
      ∃ i, i < c.targets.length ∧
        (c.targets.getD i default).Importance = TargetImportanceHigh ∧
        probeRes i ≠ none := by
  unfold HealthChecker.Handler
  rw [healthCheck_results c probeRes probeDur order h]
  simp only [Bool.false_eq_true, if_false]
  rw [aggregateStatus_eq_500_iff]
  constructor
  · rintro ⟨r, hr, hcond⟩
    rcases List.mem_map.1 hr with ⟨i, hi, rfl⟩
    exact ⟨i, List.mem_range.1 hi, (mkResult_failCond _ _ _).1 hcond⟩
  · rintro ⟨i, hi, hcond⟩
    exact ⟨mkResult (c.targets.getD i default) (probeRes i) (probeDur i),
      List.mem_map.2 ⟨i, List.mem_range.2 hi, rfl⟩,
      (mkResult_failCond _ _ _).2 hcond⟩

theorem handler_500_iff_high_fail_witness :
    ([1, 0].Perm (List.range demoChecker.targets.length)) ∧
    ((demoChecker.Handler false demoRes demoDur [1, 0]).1 = 500 ↔
      ∃ i, i < demoChecker.targets.length ∧
        (demoChecker.targets.getD i default).Importance = TargetImportanceHigh ∧
        demoRes i ≠ none) :=
  ⟨by decide, handler_500_iff_high_fail demoChecker demoRes demoDur [1, 0] (by decide)⟩

/-! ## Claims about the combinators -/

/-- Claim C7: `All` succeeds exactly when every sub-probe's result is nil,
for every mix of results and every completion order; applied to zero probes
it succeeds vacuously. -/
theorem all_succeeds_iff :
    (∀ rs : List (Option Err), allCheck rs = none ↔ ∀ r ∈ rs, r = none) ∧
    allCheck [] = none := by
  constructor
  · intro rs
    induction rs with
    | nil => simp [allCheck, errgroupWait]
    | cons r rest ih =>
      cases r with
      | none => simpa [allCheck, errgroupWait] using ih
      | some e => simp [allCheck, errgroupWait]
  · rfl

/-- Claim C8: `Any` fails exactly when every sub-probe's result is non-nil
and succeeds as soon as one is nil; on failure the reason wraps the last
observed sub-failure; applied to zero probes it fails. -/
theorem any_fails_iff :
    (∀ rs : List (Option Err), anyCheck rs = none ↔ ∃ r ∈ rs, r = none) ∧
    (∀ rs : List (Option Err), (∀ r ∈ rs, r ≠ none) →
      anyCheck rs = some (mkWrap "all checks failed" (lastSome rs))) ∧
    anyCheck [] = some (.wrapNil "all checks failed") := by
  refine ⟨?_, ?_, rfl⟩
  · intro rs
    simp only [anyCheck, errgroupWait_replicate_none]
    rcases hsc : anyScan rs none with ⟨b, le⟩
    cases b with
    | false =>
      have hall : ∀ r ∈ rs, r ≠ none :=
        (anyScan_false_iff rs none).1 (by rw [hsc])
      simp only [reduceCtorEq, false_iff, not_exists]
      intro r hr
      exact hall r hr.1 hr.2
    | true =>
      have hex : ∃ r ∈ rs, r = none := by
        by_contra hno
        push_neg at hno
        have : (anyScan rs none).1 = false := (anyScan_false_iff rs none).2 hno
        rw [hsc] at this
        simp at this
      simpa using hex
  · intro rs hall
    simp only [anyCheck, errgroupWait_replicate_none]
    have hsc := anyScan_allFail rs hall none
    have hsc2 : anyScan rs none = (false, lastSome rs) := by
      rw [hsc]; cases lastSome rs <;> rfl
    rw [hsc2]

theorem any_fails_iff_witness :
    (∀ r ∈ [some (Err.simple "a"), some (Err.simple "b")], r ≠ none) ∧
    anyCheck [some (Err.simple "a"), some (Err.simple "b")] =
      some (mkWrap "all checks failed"
        (lastSome [some (Err.simple "a"), some (Err.simple "b")])) :=
  ⟨by decide, any_fails_iff.2.1 [some (Err.simple "a"), some (Err.simple "b")] (by decide)⟩

/-- Claim C9: `WithThreshold k` succeeds exactly when at least `k` sub-probe
results are nil (for 0 ≤ k ≤ n); on failure the reason reports the success
count achieved versus the count required, wrapping the last sub-failure. -/
theorem threshold_succeeds_iff (k : Int) (rs : List (Option Err))
    (_hk0 : 0 ≤ k) (_hkn : k ≤ (rs.length : Int)) :
    (withThreshold k rs = none ↔ k ≤ (countSuccess rs : Int)) ∧
    ((countSuccess rs : Int) < k →
      withThreshold k rs = some (mkWrap ("insufficient successful checks: got " ++
        toString (countSuccess rs) ++ ", want " ++ toString k) (lastSome rs))) := by
  have hred : withThreshold k rs =
      (if ((countSuccess rs : Nat) : Int) < k then
        some (mkWrap ("insufficient successful checks: got " ++
          toString (countSuccess rs) ++ ", want " ++ toString k) (lastSome rs))
      else none) := by
    simp only [withThreshold, errgroupWait_replicate_none]
    rw [thresholdScan_eq rs 0 none]
    have hmatch : (match lastSome rs with
        | some x => some x
        | none => (none : Option Err)) = lastSome rs := by
      cases lastSome rs <;> rfl
    simp only [Nat.zero_add, hmatch]
  rw [hred]
  constructor
  · by_cases hlt : ((countSuccess rs : Nat) : Int) < k
    · simp only [if_pos hlt, reduceCtorEq, false_iff]
      omega
    · simp only [if_neg hlt, true_iff]
      omega
  · intro hlt
    simp only [if_pos hlt]

theorem threshold_succeeds_iff_witness :
    ((0 : Int) ≤ 2 ∧ (2 : Int) ≤
      (([none, some (Err.simple "x"), some (Err.simple "y")] :
        List (Option Err)).length : Int)) ∧
    withThreshold 2 [none, some (Err.simple "x"), some (Err.simple "y")] =
      some (mkWrap ("insufficient successful checks: got " ++
        toString (countSuccess [none, some (Err.simple "x"), some (Err.simple "y")]) ++
        ", want " ++ toString (2 : Int))
        (lastSome [none, some (Err.simple "x"), some (Err.simple "y")])) :=
  ⟨⟨by decide, by decide⟩,
    (threshold_succeeds_iff 2 [none, some (Err.simple "x"), some (Err.simple "y")]
      (by decide) (by decide)).2 (by decide)⟩

/-! ## Claims about the background-refresh docker probe -/

/-- Claim C4: for an Active instance (a last-checked timestamp is present)
and a non-cancelled caller context, `dockerCheck.Check` returns the cached
error verbatim while `now - lastChecked` is at most `2 * interval`, and
fails with the staleness reason as soon as it exceeds it, whatever the
cached value was. -/
theorem docker_check_staleness (dc : dockerCheck) (t now : Int)
    (hactive : dc.lastChecked = some t) :
    (now - t ≤ dc.interval * 2 → dc.Check false now = dc.lastErr) ∧
    (dc.interval * 2 < now - t →
      dc.Check false now = some (.simple (staleMsg (now - t) dc.interval))) := by
  constructor
  · intro h
    simp only [dockerCheck.Check, Bool.false_eq_true, if_false, hactive]
    rw [if_neg (by omega)]
  · intro h
    simp only [dockerCheck.Check, Bool.false_eq_true, if_false, hactive]
    rw [if_pos h]

/-- A concrete Active probe state used by the staleness claim's witness. -/
def demoDockerState : dockerCheck :=
  { lastErr := some (.simple "boom"), lastChecked := some 5, interval := 10,
    timeout := 1 }

theorem docker_check_staleness_witness :
    (demoDockerState.lastChecked = some 5) ∧
    ((20 - 5 ≤ demoDockerState.interval * 2 →
      demoDockerState.Check false 20 = demoDockerState.lastErr) ∧
     (demoDockerState.interval * 2 < 20 - 5 →
      demoDockerState.Check false 20 =
        some (.simple (staleMsg (20 - 5) demoDockerState.interval)))) :=
  ⟨rfl, docker_check_staleness demoDockerState 5 20 rfl⟩

/-- Claim C10: `newCheck` rejects an empty label set and a non-positive
interval synchronously with a construction error (no instance — hence no
background task — is created); with valid parameters and an unset timeout
the timeout is defaulted and the synchronous first refresh is already
stored on return, so an immediate evaluation returns the refreshed verdict
and never the not-yet-initialized failure. -/
theorem newCheck_validation (labelsCount : Nat) (interval cfgTimeout : Int)
    (firstRefreshErr : Option Err) (constructTime : Int) :
    (labelsCount = 0 →
      newCheck labelsCount interval cfgTimeout firstRefreshErr constructTime =
        .error "labels must not be empty") ∧
    (labelsCount ≠ 0 → interval ≤ 0 →
      newCheck labelsCount interval cfgTimeout firstRefreshErr constructTime =
        .error "interval must be positive") ∧
    (labelsCount ≠ 0 → 0 < interval → cfgTimeout = 0 →
      ∃ dc, newCheck labelsCount interval cfgTimeout firstRefreshErr constructTime =
          .ok dc ∧
        dc.lastChecked = some constructTime ∧
        dc.lastErr = firstRefreshErr ∧
        dc.timeout = defaultTimeout ∧
        dc.interval = interval ∧
        ∀ now : Int, now - constructTime ≤ interval * 2 →
          dc.Check false now = firstRefreshErr) := by
  refine ⟨?_, ?_, ?_⟩
  · intro h0
    simp only [newCheck, if_pos h0]
  · intro h0 hneg
    simp only [newCheck, if_neg h0, if_pos hneg]
  · intro h0 hpos htz
    refine ⟨{ lastErr := firstRefreshErr, lastChecked := some constructTime, interval := interval, timeout := if cfgTimeout = 0 then defaultTimeout else cfgTimeout }, ?_, rfl, rfl, ?_, rfl, ?_⟩
    · simp only [newCheck, if_neg h0, if_neg (by omega : ¬ interval ≤ 0)]
    · simp only [if_pos htz]
    · intro now hfresh
      simp only [dockerCheck.Check, Bool.false_eq_true, if_false]
      rw [if_neg (by omega)]

theorem newCheck_validation_witness :
    ((1 : Nat) ≠ 0 ∧ (0 : Int) < 10 ∧ (0 : Int) = 0) ∧
    (∃ dc, newCheck 1 10 0 none 0 = .ok dc ∧
      dc.lastChecked = some 0 ∧
      dc.lastErr = none ∧
      dc.timeout = defaultTimeout ∧
      dc.interval = 10 ∧
      ∀ now : Int, now - 0 ≤ 10 * 2 → dc.Check false now = none) :=
  ⟨⟨by decide, by decide, rfl⟩,
    (newCheck_validation 1 10 0 none 0).2.2 (by decide) (by decide) rfl⟩

/-! ## Claims about the retry combinator -/

/-- Claim C5 counterexample: with one attempt and an always-failing probe
the code still enters the delay wait after the final (only) attempt — the
spec's between-attempts-only algorithm performs no wait there.  If the
context is cancelled during that post-final wait the code returns the
cancellation reason instead of the last failure, and when it is not
cancelled a full delay elapses (one completed wait, zero between-attempt
gaps). -/
theorem retry_waits_after_last_attempt :
    retrySpec (fun _ => some (.simple "boom")) (fun _ => true) 1 =
      some (.simple "boom") ∧
    (withRetries (fun _ => some (.simple "boom")) (fun _ => true) 1).1 =
      some .ctxCanceled ∧
    (withRetries (fun _ => some (.simple "boom")) (fun _ => true) 1).1 ≠
      retrySpec (fun _ => some (.simple "boom")) (fun _ => true) 1 ∧
    (withRetries (fun _ => some (.simple "boom")) (fun _ => false) 1).2 = 1 := by
  refine ⟨rfl, rfl, by decide, rfl⟩

theorem withRetriesAux_success (probe : Nat → Option Err) (ctxDoneAt : Nat → Bool) :
    ∀ (remaining k i : Nat) (lastErr : Option Err) (waits : Nat),
      k < remaining → probe (i + k) = none →
      (∀ j, j < k → probe (i + j) ≠ none ∧ ctxDoneAt (i + j) = false) →
      withRetriesAux probe ctxDoneAt i remaining lastErr waits = (none, waits + k) := by
  intro remaining
  induction remaining with
  | zero => intro k i lastErr waits hk; omega
  | succ r ih =>
    intro k i lastErr waits hk hpk hprev
    cases k with
    | zero =>
      have hpi : probe i = none := by simpa using hpk
      simp [withRetriesAux, hpi]
    | succ kk =>
      have h0 := hprev 0 (Nat.succ_pos kk)
      have hpi : probe i ≠ none := by simpa using h0.1
      have hci : ctxDoneAt i = false := by simpa using h0.2
      rcases hx : probe i with _ | e
      · exact absurd hx hpi
      · have hrec := ih kk (i + 1) (some e) (waits + 1) (by omega)
          (by rw [show i + 1 + kk = i + (kk + 1) from by omega]; exact hpk)
          (by
            intro j hj
            rw [show i + 1 + j = i + (j + 1) from by omega]
            exact hprev (j + 1) (by omega))
        simp only [withRetriesAux, hx, hci, Bool.false_eq_true, if_false, hrec]
        rw [show waits + 1 + kk = waits + (kk + 1) from by omega]

theorem withRetriesAux_cancel (probe : Nat → Option Err) (ctxDoneAt : Nat → Bool) :
    ∀ (remaining k i : Nat) (lastErr : Option Err) (waits : Nat),
      k < remaining → probe (i + k) ≠ none → ctxDoneAt (i + k) = true →
      (∀ j, j < k → probe (i + j) ≠ none ∧ ctxDoneAt (i + j) = false) →
      withRetriesAux probe ctxDoneAt i remaining lastErr waits =
        (some .ctxCanceled, waits + k) := by
  intro remaining
  induction remaining with
  | zero => intro k i lastErr waits hk; omega
  | succ r ih =>
    intro k i lastErr waits hk hpk hck hprev
    cases k with
    | zero =>
      have hpi : probe i ≠ none := by simpa using hpk
      have hci : ctxDoneAt i = true := by simpa using hck
      rcases hx : probe i with _ | e
      · exact absurd hx hpi
      · simp [withRetriesAux, hx, hci]
    | succ kk =>
      have h0 := hprev 0 (Nat.succ_pos kk)
      have hpi : probe i ≠ none := by simpa using h0.1
      have hci : ctxDoneAt i = false := by simpa using h0.2
      rcases hx : probe i with _ | e
      · exact absurd hx hpi
      · have hrec := ih kk (i + 1) (some e) (waits + 1) (by omega)
          (by rw [show i + 1 + kk = i + (kk + 1) from by omega]; exact hpk)
          (by rw [show i + 1 + kk = i + (kk + 1) from by omega]; exact hck)
          (by
            intro j hj
            rw [show i + 1 + j = i + (j + 1) from by omega]
            exact hprev (j + 1) (by omega))
        simp only [withRetriesAux, hx, hci, Bool.false_eq_true, if_false, hrec]
        rw [show waits + 1 + kk = waits + (kk + 1) from by omega]

theorem withRetriesAux_allFail (probe : Nat → Option Err) (ctxDoneAt : Nat → Bool) :
    ∀ (remaining i : Nat) (lastErr : Option Err) (waits : Nat),
      (∀ j, j < remaining → probe (i + j) ≠ none ∧ ctxDoneAt (i + j) = false) →
      withRetriesAux probe ctxDoneAt i remaining lastErr waits =
        ((if remaining = 0 then lastErr else probe (i + remaining - 1)),
          waits + remaining) := by
  intro remaining
  induction remaining with
  | zero => intro i lastErr waits _; simp [withRetriesAux]
  | succ r ih =>
    intro i lastErr waits hall
    have h0 := hall 0 (Nat.succ_pos r)
    have hpi : probe i ≠ none := by simpa using h0.1
    have hci : ctxDoneAt i = false := by simpa using h0.2
    rcases hx : probe i with _ | e
    · exact absurd hx hpi
    · have hrec := ih (i + 1) (some e) (waits + 1)
        (by
          intro j hj
          rw [show i + 1 + j = i + (j + 1) from by omega]
          exact hall (j + 1) (by omega))
      simp only [withRetriesAux, hx, hci, Bool.false_eq_true, if_false, hrec]
      cases r with
      | zero => simpa using hx.symm
      | succ rr =>
        rw [show i + 1 + (rr + 1) - 1 = i + (rr + 1 + 1) - 1 from by omega,
          show waits + 1 + (rr + 1) = waits + (rr + 1 + 1) from by omega]
        simp

/-- Claim C5 amended: `WithRetries` invokes the probe up to `attempts`
times, stopping at the first success (having completed one delay wait per
preceding failed attempt); a delay wait follows every failed attempt — the
final one included — and is cancellable: cancellation of the context during
any of these waits makes retry return the cancellation reason instead of
the last probe failure; if every attempt fails and no wait is cancelled,
the result is the last observed failure, reached after `attempts` completed
delay waits. -/
theorem withRetries_behavior (probe : Nat → Option Err) (ctxDoneAt : Nat → Bool)
    (attempts : Nat) :
    (∀ k, k < attempts → probe k = none →
      (∀ j, j < k → probe j ≠ none ∧ ctxDoneAt j = false) →
      withRetries probe ctxDoneAt attempts = (none, k)) ∧
    (∀ k, k < attempts → probe k ≠ none → ctxDoneAt k = true →
      (∀ j, j < k → probe j ≠ none ∧ ctxDoneAt j = false) →
      withRetries probe ctxDoneAt attempts = (some .ctxCanceled, k)) ∧
    ((∀ j, j < attempts → probe j ≠ none ∧ ctxDoneAt j = false) → 0 < attempts →
      withRetries probe ctxDoneAt attempts = (probe (attempts - 1), attempts)) := by
  refine ⟨?_, ?_, ?_⟩
  · intro k hk hpk hprev
    have := withRetriesAux_success probe ctxDoneAt attempts k 0 none 0 hk
      (by simpa using hpk) (by simpa using hprev)
    simpa [withRetries] using this
  · intro k hk hpk hck hprev
    have := withRetriesAux_cancel probe ctxDoneAt attempts k 0 none 0 hk
      (by simpa using hpk) (by simpa using hck) (by simpa using hprev)
    simpa [withRetries] using this
  · intro hall hpos
    have := withRetriesAux_allFail probe ctxDoneAt attempts 0 none 0
      (by simpa using hall)
    rw [withRetries, this, if_neg (by omega : ¬ attempts = 0)]
    simp

theorem withRetries_behavior_witness :
    ((∀ j, j < 2 → (fun _ => some (Err.simple "down")) j ≠ none ∧
        (fun _ => false) j = false) ∧ 0 < 2) ∧
    withRetries (fun _ => some (Err.simple "down")) (fun _ => false) 2 =
      ((fun _ => some (Err.simple "down")) (2 - 1), 2) :=
  ⟨⟨by decide, by decide⟩,
    (withRetries_behavior (fun _ => some (Err.simple "down")) (fun _ => false) 2).2.2
      (by decide) (by decide)⟩

/-! ## Claims about the JSON body of the health endpoint -/

/-- The fields actually present in one encoded result object: the nested
target object always carries `name` and `importance`, `icon` and `group`
only when non-empty; the object always carries `status`; `error` only on a
failure with a non-empty message; `duration` only when non-zero (the
`omitempty` tag drops a zero duration). -/
def resultFieldsSpec (fields : List (String × JVal)) (t : HealthTarget)
    (res : Option Err) (dur : Nat) : Prop :=
  getKey fields "target" = some (.obj (encodeHealthTarget t)) ∧
  hasKey (encodeHealthTarget t) "name" = true ∧
  hasKey (encodeHealthTarget t) "importance" = true ∧
  (hasKey (encodeHealthTarget t) "icon" = true ↔ t.Icon ≠ "") ∧
  (hasKey (encodeHealthTarget t) "group" = true ↔ t.Group ≠ "") ∧
  hasKey fields "status" = true ∧
  (hasKey fields "error" = true → res ≠ none) ∧
  (res = none → hasKey fields "error" = false) ∧
  (hasKey fields "duration" = true ↔ dur ≠ 0)

theorem encode_mkResult_spec (t : HealthTarget) (res : Option Err) (dur : Nat) :
    resultFieldsSpec (encodeHealthCheckResult (mkResult t res dur)) t res dur := by
  have hicon : hasKey (encodeHealthTarget t) "icon" = true ↔ t.Icon ≠ "" := by
    by_cases hi : t.Icon = "" <;> by_cases hg : t.Group = "" <;>
      simp [encodeHealthTarget, hasKey, hi, hg]
  have hgroup : hasKey (encodeHealthTarget t) "group" = true ↔ t.Group ≠ "" := by
    by_cases hi : t.Icon = "" <;> by_cases hg : t.Group = "" <;>
      simp [encodeHealthTarget, hasKey, hi, hg]
  have hname : hasKey (encodeHealthTarget t) "name" = true := by
    simp [encodeHealthTarget, hasKey]
  have himp : hasKey (encodeHealthTarget t) "importance" = true := by
    simp [encodeHealthTarget, hasKey]
  cases res with
  | none =>
    refine ⟨?_, hname, himp, hicon, hgroup, ?_, ?_, ?_, ?_⟩ <;>
      by_cases hd : dur = 0 <;>
        simp [encodeHealthCheckResult, mkResult, getKey, hasKey, hd]
  | some e =>
    refine ⟨?_, hname, himp, hicon, hgroup, ?_, ?_, ?_, ?_⟩ <;>
      by_cases hd : dur = 0 <;> by_cases hm : errMessage e = "" <;>
        simp [encodeHealthCheckResult, mkResult, getKey, hasKey, hd, hm]

/-- Claim C6 counterexample: the handler's 200 body contains, for a
zero-duration Ok outcome, an object with a `status` key but no `duration`
key at all — the claimed always-present, 0-valued `duration` field does not
exist (`omitempty` drops it). -/
theorem duration_field_omitted_when_zero :
    (demoChecker.Handler false demoRes demoDur [0, 1]).2.isSome = true ∧
    hasKey (((demoChecker.Handler false demoRes demoDur [0, 1]).2.getD []).getD 0 [])
      "status" = true ∧
    hasKey (((demoChecker.Handler false demoRes demoDur [0, 1]).2.getD []).getD 0 [])
      "duration" = false := by
  decide

/-- Claim C6 amended: every object of the JSON array returned by the health
endpoint (identical on 200 and on per-target-failure 500 responses)
contains the target name and importance inside its `target` object and a
`status`; an error message is present only on failure; the `duration` field
is present exactly when the elapsed time does not round to zero (it is
omitted, not 0-valued, when it does); icon and group are optional. -/
theorem handler_body_fields (c : HealthChecker) (probeRes : Nat → Option Err)
    (probeDur : Nat → Nat) (order : List Nat)
    (h : order.Perm (List.range c.targets.length)) :
    ∃ body, (c.Handler false probeRes probeDur order).2 = some body ∧
      body.length = c.targets.length ∧
      ∀ i, i < c.targets.length →
        body.getD i [] =
          encodeHealthCheckResult
            (mkResult (c.targets.getD i default) (probeRes i) (probeDur i)) ∧
        resultFieldsSpec (body.getD i [])
          (c.targets.getD i default) (probeRes i) (probeDur i) := by
  unfold HealthChecker.Handler
  rw [healthCheck_results c probeRes probeDur order h]
  simp only [Bool.false_eq_true, if_false]
  refine ⟨_, rfl, by simp, ?_⟩
  intro i hi
  have hbody : (((List.range c.targets.length).map
      (fun i => mkResult (c.targets.getD i default) (probeRes i) (probeDur i))).map
        encodeHealthCheckResult).getD i [] =
      encodeHealthCheckResult
        (mkResult (c.targets.getD i default) (probeRes i) (probeDur i)) := by
    rw [List.getD_eq_getElem?_getD, List.getElem?_map, List.getElem?_map,
      List.getElem?_eq_getElem (by simpa using hi)]
    simp [List.getElem_range]
  exact ⟨hbody, by rw [hbody]; exact encode_mkResult_spec _ _ _⟩

theorem handler_body_fields_witness :
    ([1, 0].Perm (List.range demoChecker.targets.length)) ∧
    (∃ body, (demoChecker.Handler false demoRes demoDur [1, 0]).2 = some body ∧
      body.length = demoChecker.targets.length ∧
      ∀ i, i < demoChecker.targets.length →
        body.getD i [] =
          encodeHealthCheckResult
            (mkResult (demoChecker.targets.getD i default) (demoRes i) (demoDur i)) ∧
        resultFieldsSpec (body.getD i [])
          (demoChecker.targets.getD i default) (demoRes i) (demoDur i)) :=
  ⟨by decide, handler_body_fields demoChecker demoRes demoDur [1, 0] (by decide)⟩

theorem check_error_is_nil_witness :
    (demoChecker.Check demoRes demoDur [0, 1]).2 = none :=
  check_error_is_nil demoChecker demoRes demoDur [0, 1]

theorem all_succeeds_iff_witness :
    (allCheck [none, some (Err.simple "z")] = none ↔
      ∀ r ∈ [none, some (Err.simple "z")], r = none) ∧
    allCheck [] = none :=
  ⟨all_succeeds_iff.1 [none, some (Err.simple "z")], all_succeeds_iff.2⟩
